import Mathlib

/-!
Verification of the saftbar status-bar engine.

Shallow embedding of the content-layout and shape-rendering engine of the
saftbar repository (`src/bar.rs`, `src/setup.rs`, `src/main.rs`,
`src/error.rs`, `src/xft.rs`), together with theorems settling the frozen
claims about it.

Machine integers (`u32`, `u8`, `u16`) are modelled as `Nat` where the source
arithmetic cannot underflow under the stated hypotheses, and as `Int` for the
polygon coordinates of the shape generator, where exact subtraction matches
the source's arithmetic on all inputs the source accepts.
-/

namespace Saftbar

/-! ## Data model (`src/bar.rs`, `src/xft.rs`) -/

/-- Source `src/xft.rs`: `pub type RGBA = (u8, u8, u8, u8);` — channels as `Nat`. -/
abbrev RGBA := Nat × Nat × Nat × Nat

/-- Source `src/bar.rs`: `pub enum Alignment { Left, Center, Right }`. -/
inductive Alignment
  | Left
  | Center
  | Right
deriving DecidableEq, Repr

/-- Source `src/bar.rs`: `pub enum PowerlineStyle { Powerline, Octagon }`. -/
inductive PowerlineStyle
  | Powerline
  | Octagon
deriving DecidableEq, Repr

/-- Source `src/bar.rs`: `pub enum PowerlineFill { Full, No }`. -/
inductive PowerlineFill
  | Full
  | No
deriving DecidableEq, Repr

/-- Source `src/bar.rs`: `pub enum PowerlineDirection { Left, Right }`. -/
inductive PowerlineDirection
  | Left
  | Right
deriving DecidableEq, Repr

/-- Source `src/bar.rs`: `pub enum ContentShape { Text(String), Powerline(..) }`. -/
inductive ContentShape
  | Text (text : String)
  | Powerline (style : PowerlineStyle) (fill : PowerlineFill)
      (direction : PowerlineDirection)
deriving DecidableEq, Repr

/-- Source `src/bar.rs`: `pub struct ContentItem { fg: RGBA, bg: RGBA, shape: ContentShape }`. -/
structure ContentItem where
  fg : RGBA
  bg : RGBA
  shape : ContentShape
deriving DecidableEq, Repr

/-! ## Item width (`Bar::cursor_offset`, src/bar.rs lines 235-241)

```rust
fn cursor_offset(&self, item: &ContentItem) -> u32 {
    match &item.shape {
        ContentShape::Text(text) => self.xft.cursor_offset(text, &self.font),
        ContentShape::Powerline(_, _, _) => (self.height + 1) / 2,
        // ContentShape::Powerline(PowerlineStyle::Octagon, _, _) => self.height / 4 + 1,
    }
}
```

The `Octagon` arm is commented out in the source: every shape item, whatever
its style, advances the cursor by `(height + 1) / 2`.  Text measurement is an
opaque external collaborator, passed in as `text_width`. -/

/-- Embeds `Bar::cursor_offset`.  `text_width` stands for the opaque
`xft` text-extents measurement. -/
def cursor_offset (text_width : String → Nat) (height : Nat)
    (item : ContentItem) : Nat :=
  match item.shape with
  | ContentShape.Text text => text_width text
  | ContentShape.Powerline _ _ _ => (height + 1) / 2

/-! ## Starting cursor (`Bar::draw`, src/bar.rs lines 410-417)

```rust
let mut cursor_offset = match alignment {
    Alignment::Left => 0,
    Alignment::Center => (monitor_width - item_widths.iter().sum::<u32>()) / 2,
    Alignment::Right => monitor_width - item_widths.iter().sum::<u32>(),
};
```
-/

/-- Embeds the starting-cursor computation of `Bar::draw`; `total` is the sum
`S` of the item widths.  `u32` subtraction is modelled by `Nat` subtraction,
exact under the documented precondition `S ≤ monitor_width`. -/
def start_cursor (alignment : Alignment) (monitor_width total : Nat) : Nat :=
  match alignment with
  | Alignment.Left => 0
  | Alignment.Center => (monitor_width - total) / 2
  | Alignment.Right => monitor_width - total

/-- The widths `Bar::draw` computes for an item list (src/bar.rs 405-408). -/
def item_widths (text_width : String → Nat) (height : Nat)
    (items : List ContentItem) : List Nat :=
  items.map (cursor_offset text_width height)

/-! ## Packed pixel value (`Bar::cache_color`, src/bar.rs lines 175-189)

```rust
let r = u32::from(rgba.0);
let g = u32::from(rgba.1);
let b = u32::from(rgba.2);
let a = u32::from(rgba.3);
let color = b | g << 8 | r << 16 | a << 24;
```
-/

/-- Embeds the packed pixel value computed by `Bar::cache_color` for the
backend `create_gc` request. -/
def cache_color_pixel (r g b a : Nat) : Nat :=
  b ||| g <<< 8 ||| r <<< 16 ||| a <<< 24

/-! ## Shape generator (`Bar::shape_powerline`, src/bar.rs lines 243-300, and
`Bar::shape_octagon`, lines 302-387)

Polygon coordinates are `u32` in the source; they are modelled as `Int`, whose
exact subtraction agrees with `u32` arithmetic on every input the source
accepts without underflow (all heights `h ≥ 1` and in-range offsets).  The
truncating `u32` divisions `h / 2`, `h / 4`, `(h + 1) / 2` are `Int` division,
which agrees on the nonnegative heights a `u32` supplies. -/

/-- Embeds `Bar::shape_powerline`.  `h` is the bar height (`self.height`),
`xl` the horizontal offset at which the shape is evaluated. -/
def shape_powerline (h xl : Int) (direction : PowerlineDirection)
    (fill : PowerlineFill) : List (List (Int × Int)) :=
  let h_2 := h / 2
  let w := (h + 1) / 2
  let xr := xl + w
  let yt : Int := 0
  let yb := h
  match direction, fill with
  | PowerlineDirection.Left, PowerlineFill.Full =>
      [[(xl, yt + h_2), (xl, yb - h_2 - 1), (xr, yb), (xr, yt), (xr - 1, yt)]]
  | PowerlineDirection.Right, PowerlineFill.Full =>
      [[(xl, yb), (xr, yb - h_2 - 1), (xr, yt + h_2), (xl + 1, yt), (xl, yt)]]
  | PowerlineDirection.Left, PowerlineFill.No =>
      [[(xl, yt + h_2), (xl, yt + h_2 + 1), (xr, yt), (xr - 1, yt)],
       [(xl, yb - h_2 - 1), (xr, yb), (xr, yb - 1), (xl + 1, yb - h_2 - 1)]]
  | PowerlineDirection.Right, PowerlineFill.No =>
      [[(xl, yt), (xr, yt + h_2 + 1), (xr, yt + h_2), (xl + 1, yt)],
       [(xl, yb), (xr, yb - h_2 - 1), (xr - 1, yb - h_2 - 1), (xl, yb - 1)]]

/-- Embeds `Bar::shape_octagon`.  In the `Left` branch the source shadows `xl`
with `xr - h_4 - 1` (the shape is right-aligned inside the powerline-width
cell); the shadowed value is named `xl2` here. -/
def shape_octagon (h xl : Int) (direction : PowerlineDirection)
    (fill : PowerlineFill) : List (List (Int × Int)) :=
  let h_4 := h / 4
  let yt : Int := 0
  let yb := h
  match direction with
  | PowerlineDirection.Right =>
      let xr := xl + h_4 + 1
      match fill with
      | PowerlineFill.Full =>
          [[(xl, yb), (xr, yb - h_4 - 1), (xr, yt + h_4), (xl + 1, yt),
            (xl, yt)]]
      | PowerlineFill.No =>
          [[(xl, yt), (xr, yt + h_4 + 1), (xr, yt + h_4), (xl + 1, yt)],
           [(xr - 1, yt + h_4), (xr - 1, yb - h_4), (xr, yb - h_4),
            (xr, yt + h_4)],
           [(xl, yb), (xr, yb - h_4 - 1), (xr - 1, yb - h_4 - 1),
            (xl, yb - 1)]]
  | PowerlineDirection.Left =>
      let w := (h + 1) / 2
      let xr := xl + w
      let xl2 := xr - h_4 - 1
      match fill with
      | PowerlineFill.Full =>
          [[(xl2, yt + h_4), (xl2, yb - h_4 - 1), (xr, yb), (xr, yt),
            (xr - 1, yt)]]
      | PowerlineFill.No =>
          [[(xl2, yt + h_4), (xl2, yt + h_4 + 1), (xr, yt), (xr - 1, yt)],
           [(xl2, yt + h_4), (xl2, yb - h_4), (xl2 + 1, yb - h_4),
            (xl2 + 1, yt + h_4)],
           [(xl2, yb - h_4 - 1), (xr, yb), (xr, yb - 1),
            (xl2 + 1, yb - h_4 - 1)]]

/-- Embeds `Bar::shape_polys` (src/bar.rs lines 389-400). -/
def shape_polys (h xl : Int) (style : PowerlineStyle)
    (direction : PowerlineDirection) (fill : PowerlineFill) :
    List (List (Int × Int)) :=
  match style with
  | PowerlineStyle.Powerline => shape_powerline h xl direction fill
  | PowerlineStyle.Octagon => shape_octagon h xl direction fill

/-! ## Color-context cache (`Bar::cache_color`, `Bar::get_color`,
`Bar::cache_colors`, src/bar.rs lines 175-223, and the lookups performed by
`Bar::draw`, lines 402-451)

The `HashMap<RGBA, x::Gcontext>` is modelled by the list of cached colors;
the opaque server-side handles play no role in which lookups succeed.
`get_color`'s `.expect("Color is not cached")` — the fatal miss — is modelled
by `Option.none`. -/

/-- Embeds `Bar::cache_color`: insert the color if it is absent. -/
def cache_color (color_gcs : List RGBA) (rgba : RGBA) : List RGBA :=
  if rgba ∈ color_gcs then color_gcs else color_gcs ++ [rgba]

/-- Embeds `Bar::cache_colors`: called at the top of `Bar::draw`, it ensures
the *background* color of every item (src/bar.rs lines 217-223). -/
def cache_colors (color_gcs : List RGBA) (items : List ContentItem) :
    List RGBA :=
  items.foldl (fun acc item => cache_color acc item.bg) color_gcs

/-- Embeds `Bar::get_color`: `none` models the fatal
`expect("Color is not cached")` branch. -/
def get_color (color_gcs : List RGBA) (rgba : RGBA) : Option RGBA :=
  if rgba ∈ color_gcs then some rgba else none

/-- The color lookups of one `Bar::draw` pass: after `cache_colors`, each item
looks up its background (line 421), and a shape item additionally looks up its
foreground (line 439).  `true` iff no lookup hits the fatal branch. -/
def draw_colors_ok (color_gcs : List RGBA) (items : List ContentItem) :
    Bool :=
  let gcs := cache_colors color_gcs items
  items.all fun item =>
    (get_color gcs item.bg).isSome &&
      match item.shape with
      | ContentShape.Text _ => true
      | ContentShape.Powerline _ _ _ => (get_color gcs item.fg).isSome

/-! ## Geometry resolver (`Rectangle::is_inside` and `compare_rectangles`,
src/setup.rs lines 28-45 = src/main.rs lines 34-49; filter and sort of crtc
regions, src/main.rs lines 358-370)

`u32` fields become `Nat`; `main.rs` uses `i16`/`u16` with the identical
formulas.  Rust's `Vec::sort_by(compare)` lowers the comparator to
`is_less(a, b) = (compare(a, b) == Less)` and is the stable sort built on it;
it is modelled by the insertion sort `std` uses for short slices: each element
is shifted left, scanning right-to-left, exactly while
`is_less(inserted, settled)` holds — i.e. while
`compare(inserted, settled) = Less` — so it comes to rest before the maximal
run of settled elements the comparator calls it `Less` than.  For a
comparator that is a total order this agrees with every stable sort; the
comparator below is *not* total on vertically overlapping same-`x` rectangles,
which is what claim C3 turns on, and on two elements the model performs the
one comparison `is_less(second, first)` the real sort performs. -/

/-- Source `src/setup.rs`: `pub struct Rectangle { x, y, w, h: u32 }`. -/
structure Rectangle where
  x : Nat
  y : Nat
  w : Nat
  h : Nat
deriving DecidableEq, Repr

/-- Embeds `Rectangle::is_inside` (src/setup.rs lines 29-34). -/
def is_inside (self rect : Rectangle) : Bool :=
  decide (self.x ≥ rect.x) && decide (self.x + self.w ≤ rect.x + rect.w) &&
    decide (self.y ≥ rect.y) && decide (self.y + self.h ≤ rect.y + rect.h)

/-- Embeds `compare_rectangles` (src/setup.rs lines 39-45): for equal `x` it
compares `a`'s bottom edge `a.y + a.h` against `b`'s *top* edge `b.y`. -/
def compare_rectangles (a b : Rectangle) : Ordering :=
  if a.x == b.x then compare (a.y + a.h) b.y else compare a.x b.x

/-- One step of the `Vec::sort_by` model: insert `x` into the sorted
accumulator before exactly the maximal run of settled elements `z` with
`is_less(x, z)`, i.e. `compare(x, z) = Less` — the position Rust's
right-to-left insertion shift brings it to. -/
def insert_sorted (x : Rectangle) : List Rectangle → List Rectangle
  | [] => [x]
  | y :: ys =>
      if (y :: ys).all fun z => decide (compare_rectangles x z = Ordering.lt)
      then x :: y :: ys
      else y :: insert_sorted x ys

/-- Models `valid_regions.sort_by(compare_rectangles)`
(src/main.rs line 370). -/
def sort_by_compare (l : List Rectangle) : List Rectangle :=
  l.foldl (fun acc x => insert_sorted x acc) []

/-- Embeds the containment filter of `Bar::new` (src/main.rs lines 359-369):
a region survives iff it is not inside any *other-indexed* region. -/
def valid_regions (regions : List Rectangle) : List Rectangle :=
  regions.enum.filterMap fun p =>
    if regions.enum.all (fun q => p.1 == q.1 || !(is_inside p.2 q.2)) then
      some p.2
    else none

/-- The full GeometryResolver: containment filter, then sort. -/
def resolve_monitor_regions (regions : List Rectangle) : List Rectangle :=
  sort_by_compare (valid_regions regions)

/-- Models the monitor construction of `Bar::new`: one monitor per resolved
region, followed by the unconditional `monitors[0].window` access for the
reference drawable (src/bar.rs line 145, src/main.rs line 489).  `none` models
the index-out-of-bounds panic of `monitors[0]` when the list is empty. -/
def bar_new_monitors (regions : List Rectangle) : Option (List Rectangle) :=
  match resolve_monitor_regions regions with
  | [] => none
  | monitors => some monitors

/-- Modelled from the spec (§8, claim C3): the claimed output order —
ascending `x`, tie-broken by the bottom edges of *both* rectangles.  Stated
from the spec's words, to be compared with what the code produces. -/
def spec_output_order (a b : Rectangle) : Prop :=
  a.x < b.x ∨ (a.x = b.x ∧ a.y + a.h ≤ b.y + b.h)

/-! ## Request pipeline and error type (`Setup::pipeline_requests`,
src/setup.rs lines 208-223, and `Error`, src/error.rs lines 3-14)

```rust
.for_each(|(cookie, data)| {
    if let Err(err) = self.connection.check_request(cookie) {
        panic!("Request failed: {data:?}; {err}");
    }
});
```

A request is a pair of its debug data and its backend check result
(`none` = accepted, `some err` = rejected). -/

/-- Source `src/error.rs`: `pub enum Xcb` — the backend-reported error kinds. -/
inductive XcbError
  | Regular (err : String)
  | Protocol (err : String)
  | Conn (err : String)
deriving DecidableEq, Repr

/-- Source `src/error.rs`: `pub enum Error { Local(String), Xcb(Xcb) }` — the
structured error type distinguishing a local programming error from a
backend-reported error.  It is defined in the repository but no rendering
code constructs or returns it. -/
inductive Error
  | Local (message : String)
  | Xcb (err : XcbError)
deriving DecidableEq, Repr

/-- What a call into `Setup::pipeline_requests` does: either all checks pass
and control returns (with no value), or the process aborts in `panic!`. -/
inductive RequestOutcome
  | ok
  | panicked (msg : String)
deriving DecidableEq, Repr

/-- Embeds `Setup::pipeline_requests`: every request is sent, then the checks
run in order and the first rejected request aborts the process. -/
def pipeline_requests : List (String × Option String) → RequestOutcome
  | [] => RequestOutcome.ok
  | (data, some err) :: _ =>
      RequestOutcome.panicked ("Request failed: " ++ data ++ "; " ++ err)
  | (_, none) :: rest => pipeline_requests rest

/-! ## Theorems -/

/-- Claim C5 (confirmed).  Under the precondition that the sum `S` of the item
widths satisfies `S ≤ monitor_width`, `Bar::draw` starts the cursor at `0` for
`Left`, at `(monitor_width - S) / 2` (truncating, and at most
`monitor_width - S`) for `Center`, and at `monitor_width - S` for `Right`, so
that the `Right` start plus `S` is exactly `monitor_width`. -/
theorem start_cursor_alignment (text_width : String → Nat) (height : Nat)
    (items : List ContentItem) (monitor_width : Nat)
    (hS : (item_widths text_width height items).sum ≤ monitor_width) :
    start_cursor Alignment.Left monitor_width
        (item_widths text_width height items).sum = 0 ∧
    start_cursor Alignment.Center monitor_width
        (item_widths text_width height items).sum =
      (monitor_width - (item_widths text_width height items).sum) / 2 ∧
    start_cursor Alignment.Center monitor_width
        (item_widths text_width height items).sum ≤
      monitor_width - (item_widths text_width height items).sum ∧
    start_cursor Alignment.Right monitor_width
        (item_widths text_width height items).sum +
      (item_widths text_width height items).sum = monitor_width := by
  refine ⟨rfl, rfl, Nat.div_le_self _ _, ?_⟩
  exact Nat.sub_add_cancel hS

/-- Witness for `start_cursor_alignment`: one Powerline item of width 10 on a
monitor of width 100. -/
theorem start_cursor_alignment_witness :
    start_cursor Alignment.Right 100
        (item_widths (fun _ => 0) 20
          [⟨(0, 0, 0, 255), (255, 0, 0, 255),
            ContentShape.Powerline PowerlineStyle.Powerline PowerlineFill.Full
              PowerlineDirection.Right⟩]).sum +
      (item_widths (fun _ => 0) 20
        [⟨(0, 0, 0, 255), (255, 0, 0, 255),
          ContentShape.Powerline PowerlineStyle.Powerline PowerlineFill.Full
            PowerlineDirection.Right⟩]).sum = 100 :=
  (start_cursor_alignment (fun _ => 0) 20 _ 100 (by decide)).2.2.2

/-- Claim C1 (counterexample).  The claim asserts the Octagon item width is
`height / 4 + 1`; at height 20 that would be 6, but `Bar::cursor_offset`
computes `(20 + 1) / 2 = 10` for an Octagon item (the Octagon arm is commented
out in src/bar.rs line 239). -/
theorem octagon_width_not_quarter :
    cursor_offset (fun _ => 0) 20
        ⟨(255, 0, 0, 255), (0, 0, 255, 255),
          ContentShape.Powerline PowerlineStyle.Octagon PowerlineFill.Full
            PowerlineDirection.Right⟩ = 10 ∧
    (10 : Nat) ≠ 20 / 4 + 1 := by
  decide

/-- Claim C1 (amended).  For every shape item processed by `Bar::draw`, whatever
its style, fill and direction, the computed item width is `⌈height / 2⌉ =
(height + 1) / 2`; in particular the width never depends on the style, the
fill or the direction. -/
theorem shape_width_uniform (text_width : String → Nat) (height : Nat)
    (fg bg : RGBA) (style : PowerlineStyle) (fill : PowerlineFill)
    (direction : PowerlineDirection) :
    cursor_offset text_width height
        ⟨fg, bg, ContentShape.Powerline style fill direction⟩ =
      (height + 1) / 2 :=
  rfl

/-- Claim C9 (confirmed).  The packed pixel value `Bar::cache_color` keys the
backend request with equals `b + g·2⁸ + r·2¹⁶ + a·2²⁴` for 8-bit channels:
alpha in the high byte, then red, green, blue in descending byte order. -/
theorem cache_color_pixel_layout (r g b a : Nat) (hr : r < 256) (hg : g < 256)
    (hb : b < 256) (_ha : a < 256) :
    cache_color_pixel r g b a = b + g * 2 ^ 8 + r * 2 ^ 16 + a * 2 ^ 24 := by
  unfold cache_color_pixel
  rw [Nat.shiftLeft_eq, Nat.shiftLeft_eq, Nat.shiftLeft_eq]
  have h1 : b ||| g * 2 ^ 8 = 2 ^ 8 * g + b := by
    rw [Nat.lor_comm, Nat.mul_comm g]
    exact (Nat.mul_add_lt_is_or hb g).symm
  have hgb : 2 ^ 8 * g + b < 2 ^ 16 := by omega
  have h2 : (2 ^ 8 * g + b) ||| r * 2 ^ 16 = 2 ^ 16 * r + (2 ^ 8 * g + b) := by
    rw [Nat.lor_comm, Nat.mul_comm r]
    exact (Nat.mul_add_lt_is_or hgb r).symm
  have hrgb : 2 ^ 16 * r + (2 ^ 8 * g + b) < 2 ^ 24 := by omega
  have h3 : (2 ^ 16 * r + (2 ^ 8 * g + b)) ||| a * 2 ^ 24 =
      2 ^ 24 * a + (2 ^ 16 * r + (2 ^ 8 * g + b)) := by
    rw [Nat.lor_comm, Nat.mul_comm a]
    exact (Nat.mul_add_lt_is_or hrgb a).symm
  rw [h1, h2, h3]
  ring

/-- Witness for `cache_color_pixel_layout` at `(r, g, b, a) = (1, 2, 3, 4)`. -/
theorem cache_color_pixel_layout_witness :
    cache_color_pixel 1 2 3 4 = 3 + 2 * 2 ^ 8 + 1 * 2 ^ 16 + 4 * 2 ^ 24 :=
  cache_color_pixel_layout 1 2 3 4 (by decide) (by decide) (by decide)
    (by decide)

/-- A lookup succeeds exactly for cached colors. -/
theorem get_color_isSome (color_gcs : List RGBA) (rgba : RGBA) :
    (get_color color_gcs rgba).isSome = true ↔ rgba ∈ color_gcs := by
  simp only [get_color]
  split <;> simp_all

/-- Insertion via `cache_color` never evicts: cached colors stay cached. -/
theorem mem_cache_color_of_mem (color_gcs : List RGBA) (rgba c : RGBA)
    (hc : c ∈ color_gcs) : c ∈ cache_color color_gcs rgba := by
  unfold cache_color
  split <;> simp [hc]

/-- The inserted color is cached after `cache_color`. -/
theorem mem_cache_color_self (color_gcs : List RGBA) (rgba : RGBA) :
    rgba ∈ cache_color color_gcs rgba := by
  unfold cache_color
  split <;> simp_all

/-- Ensuring via `cache_colors` never evicts: cached colors stay cached. -/
theorem mem_cache_colors_of_mem (items : List ContentItem)
    (color_gcs : List RGBA) (c : RGBA) (hc : c ∈ color_gcs) :
    c ∈ cache_colors color_gcs items := by
  induction items generalizing color_gcs with
  | nil => exact hc
  | cons hd tl ih =>
      exact ih (cache_color color_gcs hd.bg)
        (mem_cache_color_of_mem color_gcs hd.bg c hc)

/-- After `cache_colors`, the background color of every item is cached. -/
theorem bg_mem_cache_colors (items : List ContentItem)
    (color_gcs : List RGBA) (item : ContentItem) (hi : item ∈ items) :
    item.bg ∈ cache_colors color_gcs items := by
  induction items generalizing color_gcs with
  | nil => cases hi
  | cons hd tl ih =>
      rcases List.mem_cons.mp hi with heq | hmem
      · subst heq
        exact mem_cache_colors_of_mem tl _ item.bg
          (mem_cache_color_self color_gcs item.bg)
      · exact ih _ hmem

/-- Claim C2 (counterexample).  A single Powerline item whose foreground differs
from every background: `cache_colors` ensures only the backgrounds, so the
foreground lookup of `Bar::draw` (src/bar.rs line 439) hits the fatal
`Color is not cached` branch — `draw` does have a failure path of its own. -/
theorem draw_shape_foreground_not_ensured :
    draw_colors_ok []
        [⟨(255, 0, 0, 255), (0, 0, 255, 255),
          ContentShape.Powerline PowerlineStyle.Powerline PowerlineFill.Full
            PowerlineDirection.Right⟩] = false := by
  decide

/-- Claim C2 (amended).  `cache_colors` ensures the background color of every
item before any lookup, so every background lookup of the pass succeeds; the
pass is free of fatal misses if and only if every shape item's foreground
color is in the cache after `cache_colors` (i.e. was a background of some item
or was ensured by an earlier pass). -/
theorem draw_colors_ok_iff (color_gcs : List RGBA)
    (items : List ContentItem) :
    draw_colors_ok color_gcs items = true ↔
      ∀ item ∈ items, ∀ style fill direction,
        item.shape = ContentShape.Powerline style fill direction →
          item.fg ∈ cache_colors color_gcs items := by
  unfold draw_colors_ok
  rw [List.all_eq_true]
  constructor
  · intro hall item hi style fill direction hshape
    have h := hall item hi
    rw [Bool.and_eq_true] at h
    have h2 := h.2
    rw [hshape] at h2
    exact (get_color_isSome _ _).mp h2
  · intro h item hi
    rw [Bool.and_eq_true]
    refine ⟨(get_color_isSome _ _).mpr (bg_mem_cache_colors items _ item hi),
      ?_⟩
    cases hshape : item.shape with
    | Text t => rfl
    | Powerline style fill direction =>
        exact (get_color_isSome _ _).mpr (h item hi style fill direction
          hshape)

/-- Claim C6 (confirmed).  For every bar height `h ∈ [1, 200]`, every direction
and every offset, Powerline `Full` produces exactly 1 polygon of 5 vertices,
Powerline `No` exactly 2 polygons, Octagon `Full` exactly 1 polygon and
Octagon `No` exactly 3 polygons. -/
theorem shape_polygon_counts (h : Int) (_h1 : 1 ≤ h) (_h200 : h ≤ 200)
    (xl : Int) (direction : PowerlineDirection) :
    (shape_powerline h xl direction PowerlineFill.Full).length = 1 ∧
    (∀ p ∈ shape_powerline h xl direction PowerlineFill.Full, p.length = 5) ∧
    (shape_powerline h xl direction PowerlineFill.No).length = 2 ∧
    (shape_octagon h xl direction PowerlineFill.Full).length = 1 ∧
    (shape_octagon h xl direction PowerlineFill.No).length = 3 := by
  cases direction <;>
    simp [shape_powerline, shape_octagon]

/-- Witness for `shape_polygon_counts` at `h = 20`, `xl = 7`, direction
`Right`. -/
theorem shape_polygon_counts_witness :
    (1 : Int) ≤ 20 ∧ (20 : Int) ≤ 200 ∧
    (shape_powerline 20 7 PowerlineDirection.Right PowerlineFill.No).length =
      2 :=
  ⟨by decide, by decide,
    (shape_polygon_counts 20 (by decide) (by decide) 7
      PowerlineDirection.Right).2.2.1⟩

/-- Claim C7 (confirmed).  Shape generation is translation-equivariant: for
every height, style, fill, direction, base offset `xl` and shift `k`, the
polygons produced at `xl + k` are those produced at `xl` with `k` added to
every vertex's x-coordinate. -/
theorem shape_polys_translation (h xl k : Int) (style : PowerlineStyle)
    (direction : PowerlineDirection) (fill : PowerlineFill) :
    shape_polys h (xl + k) style direction fill =
      (shape_polys h xl style direction fill).map
        (fun poly => poly.map (fun p => (p.1 + k, p.2))) := by
  cases style <;> cases direction <;> cases fill <;>
    simp only [shape_polys, shape_powerline, shape_octagon, List.map_cons,
      List.map_nil, List.cons.injEq, Prod.mk.injEq, and_true, true_and] <;>
    refine ⟨?_, ?_⟩ <;> omega

/-- The claimed output order is decidable. -/
instance : DecidableRel spec_output_order := fun a b =>
  inferInstanceAs
    (Decidable (a.x < b.x ∨ (a.x = b.x ∧ a.y + a.h ≤ b.y + b.h)))

/-- A rectangle the comparator calls `Less` than `z` has x-coordinate at most
`z`'s. -/
theorem xle_of_compare_lt (x z : Rectangle)
    (h : compare_rectangles x z = Ordering.lt) : x.x ≤ z.x := by
  unfold compare_rectangles at h
  by_cases hxx : (x.x == z.x) = true
  · have : x.x = z.x := by simpa using hxx
    omega
  · rw [if_neg hxx] at h
    have := Nat.compare_eq_lt.mp h
    omega

/-- A rectangle the comparator does not call `Less` than `z` has x-coordinate
at least `z`'s. -/
theorem xle_of_compare_ne_lt (x z : Rectangle)
    (h : ¬ compare_rectangles x z = Ordering.lt) : z.x ≤ x.x := by
  unfold compare_rectangles at h
  by_cases hxx : (x.x == z.x) = true
  · have : x.x = z.x := by simpa using hxx
    omega
  · rw [if_neg hxx] at h
    have := Nat.compare_eq_lt.not.mp h
    omega

/-- Inserting into a list whose consecutive x-coordinates are nondecreasing
preserves that property. -/
theorem chain_x_insert_sorted (x : Rectangle) (l : List Rectangle)
    (hl : List.Chain' (fun a b => a.x ≤ b.x) l) :
    List.Chain' (fun a b => a.x ≤ b.x) (insert_sorted x l) := by
  induction l with
  | nil => simp [insert_sorted]
  | cons y ys ih =>
      rw [insert_sorted]
      by_cases hall :
          ((y :: ys).all fun z =>
            decide (compare_rectangles x z = Ordering.lt)) = true
      · rw [if_pos hall]
        rw [List.all_cons, Bool.and_eq_true] at hall
        exact List.chain'_cons.mpr
          ⟨xle_of_compare_lt x y (of_decide_eq_true hall.1), hl⟩
      · rw [if_neg hall]
        have htl := (List.chain'_cons'.mp hl).2
        refine List.chain'_cons'.mpr ⟨?_, ih htl⟩
        intro z hz
        cases ys with
        | nil =>
            simp only [insert_sorted, List.head?, Option.mem_def,
              Option.some.injEq] at hz
            subst hz
            refine xle_of_compare_ne_lt x y fun hlt => hall ?_
            simp [hlt]
        | cons z0 zs =>
            rw [insert_sorted] at hz
            by_cases hall2 :
                ((z0 :: zs).all fun w =>
                  decide (compare_rectangles x w = Ordering.lt)) = true
            · rw [if_pos hall2] at hz
              simp only [List.head?, Option.mem_def, Option.some.injEq] at hz
              subst hz
              refine xle_of_compare_ne_lt x y fun hlt => hall ?_
              rw [List.all_cons, Bool.and_eq_true]
              exact ⟨decide_eq_true hlt, hall2⟩
            · rw [if_neg hall2] at hz
              simp only [List.head?, Option.mem_def, Option.some.injEq] at hz
              subst hz
              exact (List.chain'_cons.mp hl).1

/-- The sort model keeps consecutive x-coordinates nondecreasing, whatever
accumulator it starts from. -/
theorem chain_x_sort_aux (l : List Rectangle) (acc : List Rectangle)
    (hacc : List.Chain' (fun a b => a.x ≤ b.x) acc) :
    List.Chain' (fun a b => a.x ≤ b.x)
      (l.foldl (fun a x => insert_sorted x a) acc) := by
  induction l generalizing acc with
  | nil => exact hacc
  | cons x xs ih =>
      exact ih (insert_sorted x acc) (chain_x_insert_sorted x acc hacc)

/-- Claim C3 (counterexample).  Two same-`x`, vertically overlapping
rectangles, neither containing the other: `{0,0,10,100}` (bottom edge 100)
followed by `{0,1,20,1}` (bottom edge 2).  The comparator (src/setup.rs
line 41) compares `a.y + a.h` against `b`'s *top* edge `b.y`, so
`compare(second, first) = compare(2, 0) = Greater ≠ Less` and the sort's one
`is_less(second, first)` test shifts nothing: the output keeps the
bottom-edge-100 rectangle before the bottom-edge-2 one in the same column,
and the claimed consecutive-pair order
`a.x < b.x ∨ (a.x = b.x ∧ a.y+a.h ≤ b.y+b.h)` fails on the output. -/
theorem resolver_order_violated :
    ¬ List.Chain' spec_output_order
      (resolve_monitor_regions [⟨0, 0, 10, 100⟩, ⟨0, 1, 20, 1⟩]) := by
  intro hch
  have h : resolve_monitor_regions [⟨0, 0, 10, 100⟩, ⟨0, 1, 20, 1⟩] =
      [⟨0, 0, 10, 100⟩, ⟨0, 1, 20, 1⟩] := by decide
  rw [h] at hch
  exact absurd (List.chain'_cons.mp hch).1 (by decide)

/-- Claim C3 (amended).  The resolver output is sorted by nondecreasing `x`: for
every pair of consecutive results `a, b`, `a.x ≤ b.x`.  No per-pair tie-break
guarantee holds for equal `x`: the comparator's tie-break compares `a`'s
bottom edge against `b`'s *top* edge and is not a total order for vertically
overlapping same-`x` rectangles. -/
theorem resolver_sorted_by_x (regions : List Rectangle) :
    List.Chain' (fun a b => a.x ≤ b.x) (resolve_monitor_regions regions) :=
  chain_x_sort_aux (valid_regions regions) [] List.chain'_nil

/-- Claim C4 (counterexample).  With zero display rectangles `Bar::new` panics
at the `monitors[0]` reference-drawable access (src/bar.rs line 145,
src/main.rs line 489): construction does not succeed with an empty monitor
list. -/
theorem bar_new_zero_displays : bar_new_monitors [] = none :=
  rfl

/-- Claim C4 (amended).  Bar construction aborts — via the out-of-bounds
`monitors[0]` access — exactly when the resolver yields zero monitor regions;
in particular zero displays is fatal, not a rendering no-op. -/
theorem bar_new_monitors_none_iff (regions : List Rectangle) :
    bar_new_monitors regions = none ↔
      resolve_monitor_regions regions = [] := by
  unfold bar_new_monitors
  cases h : resolve_monitor_regions regions <;> simp

/-- Membership in the insertion model. -/
theorem mem_insert_sorted (a x : Rectangle) (l : List Rectangle) :
    a ∈ insert_sorted x l ↔ a = x ∨ a ∈ l := by
  induction l with
  | nil => simp [insert_sorted]
  | cons y ys ih =>
      rw [insert_sorted]
      split
      · simp [List.mem_cons]
      · simp only [List.mem_cons, ih]
        tauto

/-- Membership in the sort model, for any accumulator. -/
theorem mem_sort_aux (l acc : List Rectangle) (a : Rectangle) :
    a ∈ l.foldl (fun acc x => insert_sorted x acc) acc ↔
      a ∈ acc ∨ a ∈ l := by
  induction l generalizing acc with
  | nil => simp
  | cons x xs ih =>
      rw [List.foldl_cons, ih, mem_insert_sorted]
      simp only [List.mem_cons]
      tauto

/-- Containment is reflexive, which is what makes exact duplicates discard
each other. -/
theorem is_inside_self (r : Rectangle) : is_inside r r = true := by
  simp [is_inside]

/-- Claim C10 (confirmed).  If the input list holds the same rectangle at two
distinct positions, every occurrence of it is discarded by the containment
filter (each tests as inside the other at a different index), so the region
contributes no monitor at all. -/
theorem duplicate_regions_discarded (regions : List Rectangle)
    (r : Rectangle) (i j : Nat) (hij : i ≠ j) (hi : regions[i]? = some r)
    (hj : regions[j]? = some r) : r ∉ resolve_monitor_regions regions := by
  intro hmem
  have hv : r ∈ valid_regions regions := by
    have := (mem_sort_aux (valid_regions regions) [] r).mp hmem
    simpa using this
  rw [valid_regions, List.mem_filterMap] at hv
  obtain ⟨⟨k, rect⟩, hp, hsome⟩ := hv
  by_cases hcond :
      (regions.enum.all fun q => k == q.1 || !(is_inside rect q.2)) = true
  · rw [if_pos hcond] at hsome
    have hrect : rect = r := Option.some.inj hsome
    rw [hrect] at hcond
    have hj' : (if k = i then j else i) ≠ k ∧
        regions[if k = i then j else i]? = some r := by
      by_cases hk : k = i
      · subst hk
        simp only [if_pos rfl]
        exact ⟨fun h => hij h.symm, hj⟩
      · simp only [if_neg hk]
        exact ⟨fun h => hk h.symm, hi⟩
    have hin : ((if k = i then j else i), r) ∈ regions.enum :=
      List.mem_enum_iff_getElem?.mpr hj'.2
    have hq := List.all_eq_true.mp hcond _ hin
    rw [Bool.or_eq_true] at hq
    rcases hq with hq | hq
    · have : k = if k = i then j else i := by simpa using hq
      exact hj'.1 this.symm
    · rw [is_inside_self r] at hq
      exact Bool.false_ne_true hq
  · rw [if_neg hcond] at hsome
    exact Option.noConfusion hsome

/-- Witness for `duplicate_regions_discarded`: the duplicated rectangle
`{0, 0, 5, 5}` at positions 0 and 1 yields no monitor region. -/
theorem duplicate_regions_discarded_witness :
    (⟨0, 0, 5, 5⟩ : Rectangle) ∉
      resolve_monitor_regions [⟨0, 0, 5, 5⟩, ⟨0, 0, 5, 5⟩] :=
  duplicate_regions_discarded [⟨0, 0, 5, 5⟩, ⟨0, 0, 5, 5⟩] ⟨0, 0, 5, 5⟩ 0 1
    (by decide) rfl rfl

/-- Claim C8 (counterexample).  A fill request rejected by the backend does not
reach the caller of `draw`/`present`/`flush` as a structured `Error` value:
`Setup::pipeline_requests` panics on the spot (src/setup.rs lines 218-222),
aborting the process, so the caller never gets to decide to skip the frame. -/
theorem fill_request_failure_aborts :
    pipeline_requests [("FillRect", some "Drawable error")] =
      RequestOutcome.panicked "Request failed: FillRect; Drawable error" :=
  rfl

/-- Claim C8 (amended).  `pipeline_requests` returns control (with no value) iff
the backend accepted every request; any rejected request aborts the process
via `panic!` carrying the request's debug data and the backend error message.
The structured `Error` type of src/error.rs is never produced on this path,
and nothing is retried. -/
theorem pipeline_requests_ok_iff (rs : List (String × Option String)) :
    pipeline_requests rs = RequestOutcome.ok ↔ ∀ p ∈ rs, p.2 = none := by
  induction rs with
  | nil => simp [pipeline_requests]
  | cons p rest ih =>
      obtain ⟨d, res⟩ := p
      cases res with
      | none => simpa [pipeline_requests] using ih
      | some e => simp [pipeline_requests]

end Saftbar
